import Mathlib

/-!
Shallow embedding of the cri-containerd CRI shim (containerd/cri), covering:
image lease refcounting (pkg/store/image/leases.go), DNS option rendering
and CNI port-mapping conversion (pkg/server/sandbox_run.go), sandbox removal
(pkg/server/sandbox_remove.go), the task-exit event handler
(pkg/server/events.go), sandbox status (server PodSandboxStatus), and
container stop / stop-wait (server stopContainer / waitContainerStop).

Engine, CNI, filesystem and store side effects are represented by explicit
environment records of call outcomes; each operation is a pure function of
its environment returning a result together with a trace of the calls it
performed, in order.
-/

namespace CriShim

/-! ## Image leases (pkg/store/image/leases.go) -/

/-- The lease state of one image: a reference count and a nonleasable flag.
Go's `leases` struct with its mutex removed (operations are modelled as
atomic state transformers). -/
structure Leases where
  count : Int
  nonleasable : Bool
deriving DecidableEq, Repr

/-- `Lease` leases the image: fails iff the image is nonleasable, else
increments the count. Returns the error (if any) and the resulting state. -/
def Leases.lease (l : Leases) : Except String Unit × Leases :=
  if l.nonleasable then (Except.error "not leasable", l)
  else (Except.ok (), { l with count := l.count + 1 })

/-- `Unlease` unleases the image: fails iff the count is not positive, else
decrements the count. -/
def Leases.unlease (l : Leases) : Except String Unit × Leases :=
  if l.count ≤ 0 then (Except.error "not leased", l)
  else (Except.ok (), { l with count := l.count - 1 })

/-- `SetNonleasable` sets the flag; setting it to `true` fails iff the
count is positive. -/
def Leases.setNonleasable (l : Leases) (b : Bool) : Except String Unit × Leases :=
  if b ∧ l.count > 0 then (Except.error "leased", l)
  else (Except.ok (), { l with nonleasable := b })

/-- Reachability invariant: every operation keeps the count nonnegative
(the Go counter starts at zero and `Unlease` is guarded). -/
lemma Leases.ops_keep_count_nonneg (l : Leases) (h : 0 ≤ l.count) (b : Bool) :
    0 ≤ (l.lease).2.count ∧ 0 ≤ (l.unlease).2.count ∧
    0 ≤ (l.setNonleasable b).2.count := by
  unfold Leases.lease Leases.unlease Leases.setNonleasable
  refine ⟨?_, ?_, ?_⟩ <;> split <;> simp_all <;> omega

/-! ## DNS options (pkg/server/sandbox_run.go, parseDNSOptions) -/

/-- Upper bound on DNS search domains (the source rejects more than 6). -/
def maxDNSSearches : Nat := 6

/-- `parseDNSOptions` renders DNS servers, searches and options into
`resolv.conf` content: a `search` line, `nameserver` lines, and an
`options` line, each newline-terminated and emitted only when nonempty. -/
def parseDNSOptions (servers searches options : List String) :
    Except String String :=
  if searches.length > maxDNSSearches then
    Except.error "DNSOption.Searches has more than 6 domains"
  else
    let searchPart :=
      if searches.length > 0 then
        "search " ++ String.intercalate " " searches ++ "\n"
      else ""
    let serverPart :=
      if servers.length > 0 then
        "nameserver " ++ String.intercalate "\nnameserver " servers ++ "\n"
      else ""
    let optionPart :=
      if options.length > 0 then
        "options " ++ String.intercalate " " options ++ "\n"
      else ""
    Except.ok (searchPart ++ serverPart ++ optionPart)

/-! ## CNI port mappings (pkg/server/sandbox_run.go, toCNIPortMappings) -/

/-- CRI port-mapping protocol enum. -/
inductive Protocol
  | tcp
  | udp
deriving DecidableEq, Repr

/-- Go's `Protocol.String()`. -/
def Protocol.str : Protocol → String
  | Protocol.tcp => "TCP"
  | Protocol.udp => "UDP"

/-- A CRI port mapping (`runtime.PortMapping`). -/
structure PortMapping where
  protocol : Protocol
  containerPort : Int
  hostPort : Int
  hostIp : String
deriving DecidableEq, Repr

/-- A CNI port mapping (`ocicni.PortMapping`). -/
structure CNIPortMapping where
  hostPort : Int
  containerPort : Int
  protocol : String
  hostIP : String
deriving DecidableEq, Repr

/-- Field conversion of one mapping, as performed inside the loop body. -/
def toCNIMapping (m : PortMapping) : CNIPortMapping :=
  { hostPort := m.hostPort
    containerPort := m.containerPort
    protocol := (Protocol.str m.protocol).toLower
    hostIP := m.hostIp }

/-- `toCNIPortMappings` converts CRI port mappings to CNI mappings,
skipping every mapping whose host port is not positive. -/
def toCNIPortMappings : List PortMapping → List CNIPortMapping
  | [] => []
  | m :: rest =>
    if m.hostPort ≤ 0 then toCNIPortMappings rest
    else toCNIMapping m :: toCNIPortMappings rest

/-! ## Container metadata and the task-exit event handler
(pkg/server/events.go, handleEvent / TaskExit) -/

/-- CRI container states. -/
inductive ContainerState
  | created
  | running
  | exited
deriving DecidableEq, Repr

/-- Container metadata kept in the container store (pkg/metadata, fields
used by the server code in src/). Times are Unix nanoseconds. -/
structure ContainerMetadata where
  id : String
  sandboxID : String
  imageRef : String
  pid : Nat
  startedAt : Int
  finishedAt : Int
  exitCode : Int
  reason : String
deriving DecidableEq, Repr

/-- Modelled from the spec: `ContainerMetadata.State` (pkg/metadata is not
in src/). The spec's invariant is `finishedAt > 0` iff EXITED, with
CREATED before `Start` records `startedAt` and RUNNING after. -/
def ContainerMetadata.state (m : ContainerMetadata) : ContainerState :=
  if m.finishedAt ≠ 0 then ContainerState.exited
  else if m.startedAt ≠ 0 then ContainerState.running
  else ContainerState.created

/-- Modelled from the spec: the container store (pkg/metadata store is not
in src/), a map from container id to metadata; `Update` reads the current
value, applies the closure, and writes back. -/
def ContainerStore : Type := String → Option ContainerMetadata

/-- `Get` on the container store. -/
def storeGet (s : ContainerStore) (id : String) : Option ContainerMetadata :=
  s id

/-- `Update(id, fn)` on the container store: applies `fn` to the stored
value of `id`, leaving every other entry alone. -/
def storeUpdate (s : ContainerStore) (id : String)
    (fn : ContainerMetadata → ContainerMetadata) : ContainerStore :=
  fun k => if k = id then (s k).map fn else s k

/-- Go's `int32(u)` reinterpretation of a `uint32` exit status. -/
def toInt32 (u : Nat) : Int :=
  if u % 2 ^ 32 < 2 ^ 31 then ((u % 2 ^ 32 : Nat) : Int)
  else ((u % 2 ^ 32 : Nat) : Int) - 2 ^ 32

/-- A containerd `TaskExit` event: container id, pid of the exited
process, exit status, and exit timestamp (Unix nanoseconds). -/
structure TaskExitEvent where
  id : String
  pid : Nat
  exitStatus : Nat
  exitedAt : Int
deriving DecidableEq, Repr

/-- Outcome of an engine call whose failure may be a tolerated NotFound. -/
inductive CallResult
  | ok
  | notFound
  | otherErr
deriving DecidableEq, Repr

/-- The `TaskExit` arm of `handleEvent`: look the container up (missing or
failed lookup leaves the store alone); ignore non-init pids; delete the
engine task (a non-NotFound failure aborts before the update); then
`Update` the metadata — kept as is when `FinishedAt` is already set, else
`Pid := 0`, `FinishedAt := exitedAt`, `ExitCode := int32(exitStatus)`. -/
def handleTaskExit (s : ContainerStore) (e : TaskExitEvent)
    (delRes : CallResult) : ContainerStore :=
  match storeGet s e.id with
  | none => s
  | some meta =>
    if e.pid ≠ meta.pid then s
    else if delRes = CallResult.otherErr then s
    else
      storeUpdate s e.id fun m =>
        if m.finishedAt ≠ 0 then m
        else { m with pid := 0
                      finishedAt := e.exitedAt
                      exitCode := toInt32 e.exitStatus }

/-! ## PodSandboxStatus (server PodSandboxStatus) -/

/-- Sandbox metadata fields used here. -/
structure SandboxMetadata where
  id : String
  netNS : String
deriving DecidableEq, Repr

/-- Engine task status (containerd `task.Status`). -/
inductive TaskStatus
  | created
  | running
  | stopped
  | paused
  | unknown
deriving DecidableEq, Repr

/-- CRI pod sandbox state. -/
inductive PodSandboxState
  | ready
  | notReady
deriving DecidableEq, Repr

/-- Outcome of the engine `Info` call on the pause container: the task
status when found, NotFound (nil info), or another error. -/
inductive InfoResult
  | ok (st : TaskStatus)
  | notExist
  | otherErr
deriving DecidableEq, Repr

/-- The external observations `PodSandboxStatus` makes: the store lookup,
the engine `Info` call, and the CNI network-status query. -/
structure SandboxStatusEnv where
  sandbox : Option SandboxMetadata
  info : InfoResult
  netStatus : Except String String
deriving Repr

/-- The part of the CRI status response the claims are about. -/
structure SandboxStatusResp where
  id : String
  state : PodSandboxState
  ip : String
deriving DecidableEq, Repr

/-- `PodSandboxStatus`: fail when the sandbox is not in the store or the
engine `Info` call fails with a non-NotFound error; report READY exactly
when the engine says the pause task is running (NOTREADY otherwise,
including when the engine has no such container); a CNI network-status
failure is ignored and yields an empty IP. -/
def podSandboxStatus (env : SandboxStatusEnv) :
    Except String SandboxStatusResp :=
  match env.sandbox with
  | none => Except.error "sandbox not found"
  | some sb =>
    match env.info with
    | InfoResult.otherErr => Except.error "failed to get sandbox container info"
    | info =>
      let state :=
        match info with
        | InfoResult.ok TaskStatus.running => PodSandboxState.ready
        | _ => PodSandboxState.notReady
      let ip :=
        match env.netStatus with
        | Except.ok ip => ip
        | Except.error _ => ""
      Except.ok { id := sb.id, state := state, ip := ip }

/-! ## RemovePodSandbox (pkg/server/sandbox_remove.go) -/

/-- Store lookup outcome distinguishing a missing entry from a failure
(`metadata.IsNotExistError`). -/
inductive SandboxLookup
  | found (sb : SandboxMetadata)
  | notFound
  | otherErr
deriving Repr

/-- One externally visible step of `RemovePodSandbox`, in the order the
handler performs them. -/
inductive RStep
  | taskGet
  | removeSnapshot
  | removeContainer (id : String)
  | removeRootDir
  | deleteEngineContainer
  | deleteSandboxStore (id : String)
  | releaseName (id : String)
deriving DecidableEq, Repr

/-- Outcomes of every call `RemovePodSandbox` makes. `taskGet = ok` means
the pause task still exists (the sandbox is not fully stopped);
`notFound` means it is stopped. -/
structure RemoveSandboxEnv where
  sandbox : SandboxLookup
  taskGet : CallResult
  snapshotRemove : CallResult
  listOk : Bool
  containers : List ContainerMetadata
  removeContainerOk : String → Bool
  removeAllOk : Bool
  containerDelete : CallResult
  storeDeleteOk : Bool

/-- The container-removal loop: walk the store listing, remove every
container whose `sandboxID` matches, aborting on the first failure.
Returns the success flag and the removal steps performed, in order. -/
def removeContainers (okFn : String → Bool) (id : String) :
    List ContainerMetadata → Bool × List RStep
  | [] => (true, [])
  | c :: rest =>
    if c.sandboxID ≠ id then removeContainers okFn id rest
    else if okFn c.id then
      let r := removeContainers okFn id rest
      (r.1, RStep.removeContainer c.id :: r.2)
    else (false, [RStep.removeContainer c.id])

/-- `RemovePodSandbox`: a missing sandbox yields an empty success with no
steps; a live pause task is an error; otherwise remove the snapshot, then
all containers of the sandbox, then the sandbox root directory, then the
engine container, then the store entry, and finally release the name.
NotFound is tolerated at the snapshot, engine-container and task steps. -/
def removePodSandbox (env : RemoveSandboxEnv) :
    Except String Unit × List RStep :=
  match env.sandbox with
  | SandboxLookup.otherErr => (Except.error "failed to find sandbox", [])
  | SandboxLookup.notFound => (Except.ok (), [])
  | SandboxLookup.found sb =>
    match env.taskGet with
    | CallResult.otherErr =>
      (Except.error "failed to get sandbox container info", [RStep.taskGet])
    | CallResult.ok =>
      (Except.error "sandbox container is not fully stopped", [RStep.taskGet])
    | CallResult.notFound =>
      if env.snapshotRemove = CallResult.otherErr then
        (Except.error "failed to remove sandbox container snapshot",
          [RStep.taskGet, RStep.removeSnapshot])
      else if !env.listOk then
        (Except.error "failed to list all containers",
          [RStep.taskGet, RStep.removeSnapshot])
      else
        let rc := removeContainers env.removeContainerOk sb.id env.containers
        let tr := [RStep.taskGet, RStep.removeSnapshot] ++ rc.2
        if !rc.1 then (Except.error "failed to remove container", tr)
        else if !env.removeAllOk then
          (Except.error "failed to remove sandbox root directory",
            tr ++ [RStep.removeRootDir])
        else if env.containerDelete = CallResult.otherErr then
          (Except.error "failed to delete sandbox container",
            tr ++ [RStep.removeRootDir, RStep.deleteEngineContainer])
        else if !env.storeDeleteOk then
          (Except.error "failed to delete sandbox metadata",
            tr ++ [RStep.removeRootDir, RStep.deleteEngineContainer,
                   RStep.deleteSandboxStore sb.id])
        else
          (Except.ok (),
            tr ++ [RStep.removeRootDir, RStep.deleteEngineContainer,
                   RStep.deleteSandboxStore sb.id, RStep.releaseName sb.id])

/-- Interpretation of a step trace on the in-memory state the claims talk
about: the sandbox store, the container store and the name reservations
(each as the set of live ids). Read-only steps change nothing. -/
structure Stores where
  sandboxes : List String
  containers : List String
  names : List String
deriving DecidableEq, Repr

/-- Effect of a single step on the in-memory state. -/
def applyStep (st : Stores) : RStep → Stores
  | RStep.removeContainer i => { st with containers := st.containers.erase i }
  | RStep.deleteSandboxStore i => { st with sandboxes := st.sandboxes.erase i }
  | RStep.releaseName i => { st with names := st.names.erase i }
  | _ => st

/-- Effect of a whole trace. -/
def applyTrace (st : Stores) : List RStep → Stores
  | [] => st
  | s :: rest => applyTrace (applyStep st s) rest

/-! ## StopContainer (server stopContainer / waitContainerStop)

Time is modelled in milliseconds; `waitContainerStop`'s ticker becomes a
fuel of `timeout / stopCheckPollInterval` extra polls (the loop always
polls at least once before checking the timer). -/

/-- Poll interval of `waitContainerStop`, 100 ms. -/
def stopCheckPollInterval : Nat := 100

/-- Fixed cap waiting for SIGKILL to take effect, 2 min in ms. -/
def killContainerTimeout : Nat := 120000

/-- `unix.SIGTERM`. -/
def sigterm : Nat := 15

/-- `unix.SIGKILL`. -/
def sigkill : Nat := 9

/-- Image metadata field used by `stopContainer`: the image config's
`StopSignal` string. -/
structure ImageMetadata where
  stopSignal : String
deriving DecidableEq, Repr

/-- One store poll, as seen by `waitContainerStop`: the metadata when
found, a NotFound, or another lookup failure. -/
inductive PollResult
  | found (m : ContainerMetadata)
  | notFound
  | otherErr
deriving Repr

/-- Result of `waitContainerStop`: the container was observed stopped (or
gone), the timeout elapsed, or a store lookup failed. -/
inductive WaitResult
  | stopped
  | timeout
  | errGet
deriving DecidableEq, Repr

/-- `waitContainerStop` polling loop over the observation sequence `obs`
(indexed by absolute poll count, threaded across both waits): a NotFound
lookup means the container was removed and counts as stopped; any other
lookup failure is an error; EXITED is success; otherwise keep polling
until the fuel runs out. Returns the result and the next poll index. -/
def waitContainerStop (obs : Nat → PollResult) :
    Nat → Nat → WaitResult × Nat
  | fuel, n =>
    match obs n with
    | PollResult.otherErr => (WaitResult.errGet, n + 1)
    | PollResult.notFound => (WaitResult.stopped, n + 1)
    | PollResult.found m =>
      if m.state = ContainerState.exited then (WaitResult.stopped, n + 1)
      else
        match fuel with
        | 0 => (WaitResult.timeout, n + 1)
        | fuel + 1 => waitContainerStop obs fuel (n + 1)

/-- Outcome of a `taskService.Kill` call: success, NotFound, runc's
"process already finished", or another error. -/
inductive CallResult2
  | ok
  | notFound
  | alreadyFinished
  | otherErr
deriving DecidableEq, Repr

/-- External observations `stopContainer` makes: the image-store lookup,
the outcome of each `Kill` call (indexed by call count), and the store
polls. -/
structure StopEnv where
  image : Option ImageMetadata
  parseSignal : String → Option Nat
  kill : Nat → CallResult2
  obs : Nat → PollResult

/-- Externally visible actions of `stopContainer`: signals sent and waits
performed (with the time budget, ms). -/
inductive SCAction
  | kill (sig : Nat)
  | waitStop (budgetMs : Nat)
deriving DecidableEq, Repr

/-- Result of `stopContainer`. -/
inductive StopResult
  | ok
  | err
deriving DecidableEq, Repr

/-- The SIGKILL fallthrough of `stopContainer`: kill with SIGKILL
(tolerating NotFound and already-finished), then wait up to the fixed
2-minute cap; success exactly when the wait observes the stop. -/
def killPhase (env : StopEnv) (killIdx pollStart : Nat) :
    StopResult × List SCAction :=
  if env.kill killIdx = CallResult2.otherErr then
    (StopResult.err, [SCAction.kill sigkill])
  else
    let w := waitContainerStop env.obs
      (killContainerTimeout / stopCheckPollInterval) pollStart
    if w.1 = WaitResult.stopped then
      (StopResult.ok, [SCAction.kill sigkill, SCAction.waitStop killContainerTimeout])
    else
      (StopResult.err, [SCAction.kill sigkill, SCAction.waitStop killContainerTimeout])

/-- `stopContainer`: a container that is not RUNNING is a no-op success.
With a positive timeout, resolve the image's stop signal (SIGTERM when the
image config's `StopSignal` is empty), send it (tolerating NotFound and
already-finished), and poll the store for EXITED up to the timeout; when
that wait does not observe the stop, fall through to the SIGKILL phase. -/
def stopContainer (env : StopEnv) (meta : ContainerMetadata)
    (timeoutMs : Nat) : StopResult × List SCAction :=
  if meta.state ≠ ContainerState.running then (StopResult.ok, [])
  else if timeoutMs > 0 then
    match env.image with
    | none => (StopResult.err, [])
    | some im =>
      let sigOpt :=
        if im.stopSignal = "" then some sigterm
        else env.parseSignal im.stopSignal
      match sigOpt with
      | none => (StopResult.err, [])
      | some sig =>
        if env.kill 0 = CallResult2.otherErr then
          (StopResult.err, [SCAction.kill sig])
        else
          let w := waitContainerStop env.obs
            (timeoutMs / stopCheckPollInterval) 0
          if w.1 = WaitResult.stopped then
            (StopResult.ok, [SCAction.kill sig, SCAction.waitStop timeoutMs])
          else
            let kp := killPhase env 1 w.2
            (kp.1, [SCAction.kill sig, SCAction.waitStop timeoutMs] ++ kp.2)
  else
    killPhase env 0 0

/-! ## Theorems -/

/-- C2: for every lease state with a nonnegative count (the reachable
states, see `Leases.ops_keep_count_nonneg`): `Lease` succeeds and
increments the count by one iff `nonleasable` is false; `Unlease` succeeds
and decrements iff the count is positive; `SetNonleasable true` succeeds
and sets the flag iff the count is zero; every failing call leaves the
`(count, nonleasable)` pair unchanged. -/
theorem leases_contract (l : Leases) (h : 0 ≤ l.count) :
    (l.nonleasable = false →
      l.lease = (Except.ok (), { l with count := l.count + 1 })) ∧
    (l.nonleasable = true → l.lease = (Except.error "not leasable", l)) ∧
    (0 < l.count →
      l.unlease = (Except.ok (), { l with count := l.count - 1 })) ∧
    (l.count = 0 → l.unlease = (Except.error "not leased", l)) ∧
    (l.count = 0 →
      l.setNonleasable true = (Except.ok (), { l with nonleasable := true })) ∧
    (l.count ≠ 0 → l.setNonleasable true = (Except.error "leased", l)) := by
  refine ⟨?_, ?_, ?_, ?_, ?_, ?_⟩ <;> intro hh
  · simp [Leases.lease, hh]
  · simp [Leases.lease, hh]
  · simp [Leases.unlease, show ¬l.count ≤ 0 by omega]
  · simp [Leases.unlease, hh]
  · simp [Leases.setNonleasable, hh]
  · simp [Leases.setNonleasable, show l.count > 0 by omega]

/-- Witness for C2 at the fresh lease state `(count 0, leasable)`. -/
theorem leases_contract_witness :
    Leases.lease { count := 0, nonleasable := false } =
      (Except.ok (), { count := 1, nonleasable := false }) ∧
    Leases.setNonleasable { count := 0, nonleasable := false } true =
      (Except.ok (), { count := 0, nonleasable := true }) := by
  have h := leases_contract { count := 0, nonleasable := false } (by decide)
  exact ⟨h.1 rfl, h.2.2.2.2.1 rfl⟩

/-- C8: on servers `[8.8.8.8]`, searches `[114.114.114.114]`, options
`[timeout:1]`, `parseDNSOptions` yields exactly one `search` line, one
`nameserver` line, and one `options` line, each newline-terminated, with
no error. -/
theorem parseDNSOptions_concrete :
    parseDNSOptions ["8.8.8.8"] ["114.114.114.114"] ["timeout:1"] =
      Except.ok "search 114.114.114.114\nnameserver 8.8.8.8\noptions timeout:1\n" := by
  rfl

/-- C10: the CNI port mappings handed to `SetUp` are exactly the input
mappings with a strictly positive host port, converted field-by-field, in
input order; non-positive host ports are dropped. -/
theorem toCNIPortMappings_filter_map (l : List PortMapping) :
    toCNIPortMappings l =
      (l.filter fun m => 0 < m.hostPort).map toCNIMapping := by
  induction l with
  | nil => rfl
  | cons m rest ih =>
    by_cases h : m.hostPort ≤ 0
    · rw [show toCNIPortMappings (m :: rest) = toCNIPortMappings rest from
        if_pos h, ih]
      simp [List.filter_cons, show ¬(0 < m.hostPort) from not_lt.mpr h]
    · rw [show toCNIPortMappings (m :: rest) =
          toCNIMapping m :: toCNIPortMappings rest from if_neg h, ih]
      simp [List.filter_cons, show 0 < m.hostPort from lt_of_not_le h]

/-- C1: for a `TaskExit` event whose container is in the store and whose
engine task-delete did not fail hard: a pid different from the stored init
pid leaves the store unchanged; a matching pid with `finishedAt = 0` sets
`finishedAt` to the event's exit timestamp and `exitCode` to the event's
exit status (EXITED once the timestamp is nonzero) while leaving every
other container alone; a matching pid with `finishedAt ≠ 0` keeps the
metadata exactly as it was. -/
theorem handleTaskExit_spec (s : ContainerStore) (e : TaskExitEvent)
    (delRes : CallResult) (meta : ContainerMetadata)
    (hget : storeGet s e.id = some meta)
    (hdel : delRes ≠ CallResult.otherErr) :
    (e.pid ≠ meta.pid → handleTaskExit s e delRes = s) ∧
    (e.pid = meta.pid → meta.finishedAt = 0 →
      ∃ meta', storeGet (handleTaskExit s e delRes) e.id = some meta' ∧
        meta'.finishedAt = e.exitedAt ∧
        meta'.exitCode = toInt32 e.exitStatus ∧
        (e.exitedAt ≠ 0 → meta'.state = ContainerState.exited) ∧
        (∀ k, k ≠ e.id → storeGet (handleTaskExit s e delRes) k = storeGet s k)) ∧
    (e.pid = meta.pid → meta.finishedAt ≠ 0 → handleTaskExit s e delRes = s) := by
  refine ⟨?_, ?_, ?_⟩
  · intro hne
    simp [handleTaskExit, hget, hne]
  · intro hpe hfin
    have hred : handleTaskExit s e delRes =
        storeUpdate s e.id fun m =>
          if m.finishedAt ≠ 0 then m
          else { m with pid := 0
                        finishedAt := e.exitedAt
                        exitCode := toInt32 e.exitStatus } := by
      simp [handleTaskExit, hget, hpe, hdel]
    refine ⟨{ meta with pid := 0
                        finishedAt := e.exitedAt
                        exitCode := toInt32 e.exitStatus }, ?_, rfl, rfl, ?_, ?_⟩
    · rw [hred]
      simp [storeUpdate, storeGet] at hget ⊢
      simp [hget, hfin]
    · intro hne
      simp [ContainerMetadata.state, hne]
    · intro k hk
      rw [hred]
      simp [storeUpdate, storeGet, hk]
  · intro hpe hfin
    have hred : handleTaskExit s e delRes =
        storeUpdate s e.id fun m =>
          if m.finishedAt ≠ 0 then m
          else { m with pid := 0
                        finishedAt := e.exitedAt
                        exitCode := toInt32 e.exitStatus } := by
      simp [handleTaskExit, hget, hpe, hdel]
    rw [hred]
    funext k
    by_cases hk : k = e.id
    · subst hk
      simp [storeUpdate, storeGet] at hget ⊢
      simp [hget, hfin]
    · simp [storeUpdate, hk]

/-- Witness for C1: a one-container store, an exit event for its init pid
with status 3 at time 77. -/
theorem handleTaskExit_spec_witness :
    ∃ meta', storeGet (handleTaskExit
        (fun k => if k = "c" then
          some { id := "c", sandboxID := "s", imageRef := "img", pid := 5,
                 startedAt := 10, finishedAt := 0, exitCode := 0, reason := "" }
          else none)
        { id := "c", pid := 5, exitStatus := 3, exitedAt := 77 }
        CallResult.ok) "c" = some meta' ∧
      meta'.finishedAt = 77 ∧ meta'.exitCode = 3 ∧
      meta'.state = ContainerState.exited := by
  obtain ⟨m', hm, hfin, hcode, hstate, _⟩ :=
    (handleTaskExit_spec
      (fun k => if k = "c" then
        some { id := "c", sandboxID := "s", imageRef := "img", pid := 5,
               startedAt := 10, finishedAt := 0, exitCode := 0, reason := "" }
        else none)
      { id := "c", pid := 5, exitStatus := 3, exitedAt := 77 }
      CallResult.ok
      { id := "c", sandboxID := "s", imageRef := "img", pid := 5,
        startedAt := 10, finishedAt := 0, exitCode := 0, reason := "" }
      rfl (by decide)).2.1 rfl rfl
  refine ⟨m', hm, hfin, ?_, hstate (by decide)⟩
  rw [hcode]
  decide

/-- C7: for a sandbox present in the store (and an engine `Info` call that
does not fail hard), `PodSandboxStatus` succeeds and reports READY exactly
when the engine says the pause task is running — NOTREADY otherwise,
including when the engine has no such container — and a failed CNI
network-status query yields an empty IP rather than an error. -/
theorem podSandboxStatus_spec (env : SandboxStatusEnv) (sb : SandboxMetadata)
    (hsb : env.sandbox = some sb)
    (hinfo : env.info ≠ InfoResult.otherErr) :
    ∃ resp, podSandboxStatus env = Except.ok resp ∧
      resp.id = sb.id ∧
      (resp.state = PodSandboxState.ready ↔
        env.info = InfoResult.ok TaskStatus.running) ∧
      (∀ msg, env.netStatus = Except.error msg → resp.ip = "") ∧
      (∀ ip, env.netStatus = Except.ok ip → resp.ip = ip) := by
  refine ⟨{ id := sb.id
            state := match env.info with
              | InfoResult.ok TaskStatus.running => PodSandboxState.ready
              | _ => PodSandboxState.notReady
            ip := match env.netStatus with
              | Except.ok ip => ip
              | Except.error _ => "" }, ?_, rfl, ?_, ?_, ?_⟩
  · cases hi : env.info with
    | ok st => simp [podSandboxStatus, hsb, hi]
    | notExist => simp [podSandboxStatus, hsb, hi]
    | otherErr => exact absurd hi hinfo
  · cases hi : env.info with
    | ok st => cases st <;> simp [hi]
    | notExist => simp [hi]
    | otherErr => exact absurd hi hinfo
  · intro msg hmsg
    simp [hmsg]
  · intro ip hip
    simp [hip]

/-- Witness for C7: a found sandbox whose pause task the engine reports
running, with a failing CNI query. -/
theorem podSandboxStatus_spec_witness :
    ∃ resp, podSandboxStatus
        { sandbox := some { id := "s1", netNS := "/var/run/netns/x" }
          info := InfoResult.ok TaskStatus.running
          netStatus := Except.error "cni down" } = Except.ok resp ∧
      resp.state = PodSandboxState.ready ∧ resp.ip = "" := by
  obtain ⟨resp, hok, _, hready, hnet, _⟩ :=
    podSandboxStatus_spec
      { sandbox := some { id := "s1", netNS := "/var/run/netns/x" }
        info := InfoResult.ok TaskStatus.running
        netStatus := Except.error "cni down" }
      { id := "s1", netNS := "/var/run/netns/x" } rfl (by decide)
  exact ⟨resp, hok, hready.mpr rfl, hnet "cni down" rfl⟩

/-- C6: `RemovePodSandbox` on an id absent from the sandbox store returns
an empty success with no error, performs no step, and therefore leaves the
sandbox store, container store and name reservations unchanged. -/
theorem removePodSandbox_absent (env : RemoveSandboxEnv)
    (h : env.sandbox = SandboxLookup.notFound) :
    removePodSandbox env = (Except.ok (), []) ∧
    (∀ st : Stores, applyTrace st (removePodSandbox env).2 = st) := by
  have hred : removePodSandbox env = (Except.ok (), []) := by
    simp [removePodSandbox, h]
  exact ⟨hred, fun st => by rw [hred]; rfl⟩

/-- Witness for C6 at a concrete environment and store state. -/
theorem removePodSandbox_absent_witness :
    removePodSandbox
      { sandbox := SandboxLookup.notFound
        taskGet := CallResult.notFound
        snapshotRemove := CallResult.ok
        listOk := true
        containers := []
        removeContainerOk := fun _ => true
        removeAllOk := true
        containerDelete := CallResult.ok
        storeDeleteOk := true } = (Except.ok (), []) ∧
    applyTrace { sandboxes := ["s1"], containers := ["c1"], names := ["n1"] }
      (removePodSandbox
        { sandbox := SandboxLookup.notFound
          taskGet := CallResult.notFound
          snapshotRemove := CallResult.ok
          listOk := true
          containers := []
          removeContainerOk := fun _ => true
          removeAllOk := true
          containerDelete := CallResult.ok
          storeDeleteOk := true }).2 =
      { sandboxes := ["s1"], containers := ["c1"], names := ["n1"] } := by
  have h := removePodSandbox_absent
    { sandbox := SandboxLookup.notFound
      taskGet := CallResult.notFound
      snapshotRemove := CallResult.ok
      listOk := true
      containers := []
      removeContainerOk := fun _ => true
      removeAllOk := true
      containerDelete := CallResult.ok
      storeDeleteOk := true } rfl
  exact ⟨h.1, h.2 _⟩

/-- A concrete `RemovePodSandbox` environment: sandbox `s1` with a stopped
pause task, one container `c1` in `s1`, every call succeeding. -/
def sandboxRemoveEnv1 : RemoveSandboxEnv :=
  { sandbox := SandboxLookup.found { id := "s1", netNS := "/var/run/netns/x" }
    taskGet := CallResult.notFound
    snapshotRemove := CallResult.ok
    listOk := true
    containers := [{ id := "c1", sandboxID := "s1", imageRef := "img",
                     pid := 7, startedAt := 10, finishedAt := 20,
                     exitCode := 0, reason := "" }]
    removeContainerOk := fun _ => true
    removeAllOk := true
    containerDelete := CallResult.ok
    storeDeleteOk := true }

/-- Counterexample to C4 as stated: in `sandboxRemoveEnv1` both the
snapshot removal and the removal of container `c1` occur, and the snapshot
removal comes strictly first — the containers are not removed before the
snapshot. -/
theorem removePodSandbox_snapshot_first_cex :
    RStep.removeSnapshot ∈ (removePodSandbox sandboxRemoveEnv1).2 ∧
    RStep.removeContainer "c1" ∈ (removePodSandbox sandboxRemoveEnv1).2 ∧
    (removePodSandbox sandboxRemoveEnv1).2.indexOf RStep.removeSnapshot <
      (removePodSandbox sandboxRemoveEnv1).2.indexOf
        (RStep.removeContainer "c1") := by
  decide

/-- The container-removal loop removes exactly the listed containers of
the sandbox, in listing order, when every removal succeeds. -/
lemma removeContainers_all_ok (okFn : String → Bool) (id : String)
    (l : List ContainerMetadata) (h : ∀ c ∈ l, okFn c.id = true) :
    removeContainers okFn id l =
      (true, (l.filter fun c => c.sandboxID == id).map
        fun c => RStep.removeContainer c.id) := by
  induction l with
  | nil => rfl
  | cons c rest ih =>
    have hok : okFn c.id = true := h c (List.mem_cons_self c rest)
    have ihr := ih fun d hd => h d (List.mem_cons_of_mem c hd)
    by_cases hc : c.sandboxID = id
    · rw [show removeContainers okFn id (c :: rest) =
          ((removeContainers okFn id rest).1,
            RStep.removeContainer c.id :: (removeContainers okFn id rest).2) by
        simp [removeContainers, hc, hok]]
      simp [ihr, List.filter_cons, hc]
    · rw [show removeContainers okFn id (c :: rest) =
          removeContainers okFn id rest by simp [removeContainers, hc]]
      simp [ihr, List.filter_cons, hc]

/-- C4 amended: for every sandbox in the store whose pause task is
stopped, when all calls succeed `RemovePodSandbox` performs, in order: the
snapshot removal first, then the removal of every container of the
sandbox, then the sandbox root directory, then the engine container, the
store entry, and the name release. -/
theorem removePodSandbox_order (env : RemoveSandboxEnv) (sb : SandboxMetadata)
    (hsb : env.sandbox = SandboxLookup.found sb)
    (htask : env.taskGet = CallResult.notFound)
    (hsnap : env.snapshotRemove ≠ CallResult.otherErr)
    (hlist : env.listOk = true)
    (hrc : ∀ c ∈ env.containers, env.removeContainerOk c.id = true)
    (hra : env.removeAllOk = true)
    (hcd : env.containerDelete ≠ CallResult.otherErr)
    (hsd : env.storeDeleteOk = true) :
    removePodSandbox env =
      (Except.ok (),
        [RStep.taskGet, RStep.removeSnapshot] ++
        (env.containers.filter fun c => c.sandboxID == sb.id).map
          (fun c => RStep.removeContainer c.id) ++
        [RStep.removeRootDir, RStep.deleteEngineContainer,
         RStep.deleteSandboxStore sb.id, RStep.releaseName sb.id]) := by
  have hloop := removeContainers_all_ok env.removeContainerOk sb.id
    env.containers hrc
  simp [removePodSandbox, hsb, htask, hsnap, hlist, hloop, hra, hcd, hsd]

/-- Witness for the amended C4 at `sandboxRemoveEnv1`. -/
theorem removePodSandbox_order_witness :
    removePodSandbox sandboxRemoveEnv1 =
      (Except.ok (),
        [RStep.taskGet, RStep.removeSnapshot, RStep.removeContainer "c1",
         RStep.removeRootDir, RStep.deleteEngineContainer,
         RStep.deleteSandboxStore "s1", RStep.releaseName "s1"]) := by
  have h := removePodSandbox_order sandboxRemoveEnv1
    { id := "s1", netNS := "/var/run/netns/x" }
    rfl rfl (by decide) rfl (by decide) rfl (by decide) rfl
  rw [h]
  rfl

/-- A concrete stop environment: image with empty `StopSignal`, kill calls
answered NotFound, every store poll seeing an exited container. -/
def stopEnvStub : StopEnv :=
  { image := some { stopSignal := "" }
    parseSignal := fun _ => none
    kill := fun _ => CallResult2.notFound
    obs := fun _ => PollResult.found
      { id := "c", sandboxID := "s", imageRef := "img", pid := 5,
        startedAt := 10, finishedAt := 20, exitCode := 0, reason := "" } }

/-- C5: `StopContainer` on a container that is not RUNNING returns success
without sending any signal or performing any wait (empty action trace; the
store is never written by this path). -/
theorem stopContainer_not_running (env : StopEnv) (meta : ContainerMetadata)
    (timeoutMs : Nat) (h : meta.state ≠ ContainerState.running) :
    stopContainer env meta timeoutMs = (StopResult.ok, []) := by
  simp [stopContainer, h]

/-- Witness for C5 on a CREATED container. -/
theorem stopContainer_not_running_witness :
    stopContainer stopEnvStub
      { id := "c", sandboxID := "s", imageRef := "img", pid := 0,
        startedAt := 0, finishedAt := 0, exitCode := 0, reason := "" } 5000 =
      (StopResult.ok, []) :=
  stopContainer_not_running stopEnvStub
    { id := "c", sandboxID := "s", imageRef := "img", pid := 0,
      startedAt := 0, finishedAt := 0, exitCode := 0, reason := "" }
    5000 (by decide)

/-- C3: for a RUNNING container with a positive timeout, `stopContainer`
resolves the stop signal from the image config (SIGTERM when empty), sends
it, and polls the store for EXITED up to the caller's timeout; when that
wait observes the stop it returns success having sent only that signal;
otherwise it sends SIGKILL and waits up to the fixed 2-minute cap,
succeeding exactly when the second wait observes the stop. NotFound and
process-already-finished kill outcomes (any outcome other than a hard
error) never fail the call. -/
theorem stopContainer_running_spec (env : StopEnv) (meta : ContainerMetadata)
    (timeoutMs : Nat) (im : ImageMetadata) (sig : Nat)
    (hrun : meta.state = ContainerState.running)
    (htime : 0 < timeoutMs)
    (him : env.image = some im)
    (hsig : (if im.stopSignal = "" then some sigterm
             else env.parseSignal im.stopSignal) = some sig)
    (hk0 : env.kill 0 ≠ CallResult2.otherErr)
    (hk1 : env.kill 1 ≠ CallResult2.otherErr) :
    (im.stopSignal = "" → sig = sigterm) ∧
    ((waitContainerStop env.obs (timeoutMs / stopCheckPollInterval) 0).1 =
        WaitResult.stopped →
      stopContainer env meta timeoutMs =
        (StopResult.ok, [SCAction.kill sig, SCAction.waitStop timeoutMs])) ∧
    ((waitContainerStop env.obs (timeoutMs / stopCheckPollInterval) 0).1 ≠
        WaitResult.stopped →
      stopContainer env meta timeoutMs =
        ((if (waitContainerStop env.obs
                (killContainerTimeout / stopCheckPollInterval)
                (waitContainerStop env.obs
                  (timeoutMs / stopCheckPollInterval) 0).2).1 =
              WaitResult.stopped
          then StopResult.ok else StopResult.err),
         [SCAction.kill sig, SCAction.waitStop timeoutMs,
          SCAction.kill sigkill, SCAction.waitStop killContainerTimeout])) := by
  refine ⟨?_, ?_, ?_⟩
  · intro hempty
    rw [hempty] at hsig
    simp at hsig
    omega
  · intro hw
    simp [stopContainer, hrun, htime, him, hsig, hk0, hw]
  · intro hw
    simp [stopContainer, killPhase, hrun, htime, him, hsig, hk0, hk1, hw]
    constructor <;> split <;> simp

/-- Witness for C3: empty image stop signal resolves to SIGTERM, the first
wait observes the exit, and the tolerated NotFound kill outcome does not
fail the call. -/
theorem stopContainer_running_spec_witness :
    stopContainer stopEnvStub
      { id := "c", sandboxID := "s", imageRef := "img", pid := 5,
        startedAt := 10, finishedAt := 0, exitCode := 0, reason := "" } 1000 =
      (StopResult.ok, [SCAction.kill 15, SCAction.waitStop 1000]) := by
  have h := (stopContainer_running_spec stopEnvStub
    { id := "c", sandboxID := "s", imageRef := "img", pid := 5,
      startedAt := 10, finishedAt := 0, exitCode := 0, reason := "" }
    1000 { stopSignal := "" } 15
    (by decide) (by decide) rfl (by decide) (by decide) (by decide)).2.1
    (by decide)
  exact h

/-- `waitContainerStop` observes a NotFound store lookup (the container
was removed while polling) as the container having stopped, provided every
earlier poll saw it still alive and the fuel has not yet run out. -/
lemma waitContainerStop_notFound_stopped (obs : Nat → PollResult) :
    ∀ fuel start k : Nat, start ≤ k → k ≤ start + fuel →
      (∀ j, start ≤ j → j < k → ∃ m, obs j = PollResult.found m ∧
        m.state ≠ ContainerState.exited) →
      obs k = PollResult.notFound →
      waitContainerStop obs fuel start = (WaitResult.stopped, k + 1) := by
  intro fuel
  induction fuel with
  | zero =>
    intro start k h1 h2 hbefore hk
    have hks : k = start := by omega
    subst hks
    simp [waitContainerStop, hk]
  | succ f ih =>
    intro start k h1 h2 hbefore hk
    by_cases hs : start = k
    · subst hs
      simp [waitContainerStop, hk]
    · obtain ⟨m, hm, hmstate⟩ := hbefore start le_rfl (by omega)
      rw [show waitContainerStop obs (f + 1) start =
          waitContainerStop obs f (start + 1) by
        simp [waitContainerStop, hm, hmstate]]
      exact ih (start + 1) k (by omega) (by omega)
        (fun j hj1 hj2 => hbefore j (by omega) hj2) hk

/-- C9: if the container is deleted from the store while `StopContainer`
is polling for its exit (a NotFound poll after some polls that saw it
alive, within the timeout), the wait treats it as already stopped and
`stopContainer` returns success, not a not-found error. -/
theorem stopContainer_removed_during_wait (env : StopEnv)
    (meta : ContainerMetadata) (timeoutMs : Nat) (im : ImageMetadata)
    (sig k : Nat)
    (hrun : meta.state = ContainerState.running)
    (htime : 0 < timeoutMs)
    (him : env.image = some im)
    (hsig : (if im.stopSignal = "" then some sigterm
             else env.parseSignal im.stopSignal) = some sig)
    (hk0 : env.kill 0 ≠ CallResult2.otherErr)
    (hk : k ≤ timeoutMs / stopCheckPollInterval)
    (hbefore : ∀ j, j < k → ∃ m, env.obs j = PollResult.found m ∧
      m.state ≠ ContainerState.exited)
    (hgone : env.obs k = PollResult.notFound) :
    stopContainer env meta timeoutMs =
      (StopResult.ok, [SCAction.kill sig, SCAction.waitStop timeoutMs]) := by
  have hw := waitContainerStop_notFound_stopped env.obs
    (timeoutMs / stopCheckPollInterval) 0 k (Nat.zero_le k) (by omega)
    (fun j _ hj => hbefore j hj) hgone
  simp [stopContainer, hrun, htime, him, hsig, hk0, hw]

/-- Witness for C9: the container is seen alive at the first poll and gone
at the second; the stop succeeds having sent only SIGTERM. -/
theorem stopContainer_removed_during_wait_witness :
    stopContainer
      { image := some { stopSignal := "" }
        parseSignal := fun _ => none
        kill := fun _ => CallResult2.ok
        obs := fun n => if n = 0 then PollResult.found
            { id := "c", sandboxID := "s", imageRef := "img", pid := 5,
              startedAt := 10, finishedAt := 0, exitCode := 0, reason := "" }
          else PollResult.notFound }
      { id := "c", sandboxID := "s", imageRef := "img", pid := 5,
        startedAt := 10, finishedAt := 0, exitCode := 0, reason := "" } 1000 =
      (StopResult.ok, [SCAction.kill sigterm, SCAction.waitStop 1000]) := by
  exact stopContainer_removed_during_wait _
    { id := "c", sandboxID := "s", imageRef := "img", pid := 5,
      startedAt := 10, finishedAt := 0, exitCode := 0, reason := "" }
    1000 { stopSignal := "" } sigterm 1
    (by decide) (by decide) rfl (by decide) (by decide) (by decide)
    (fun j hj => by
      have hj0 : j = 0 := by omega
      subst hj0
      exact ⟨_, rfl, by decide⟩)
    rfl

end CriShim
